import Mathlib

/-!
Shallow embedding of the node-sharex-server upload service
(src/app.js, src/routes/index.js, src/libs/middleware.js,
src/libs/response.js, src/libs/handleLargeFile.js) together with
theorems settling the frozen claims about it.

Conventions of the embedding:
* JavaScript strings are Lean `String`; absent/undefined/null values are
  `Option`; JS truthiness of a string value is `jsTruthy` (empty string
  and null are falsy).
* Machine numbers are `Nat`/`Int`; the JS `NaN` produced by `parseInt`
  is `Option Int` with `none` for `NaN`, and JS comparisons involving
  `NaN` (always false) are the `jsGe`/`jsGt` helpers.
* The filesystem is a list of the absolute paths currently present; the
  route handlers are functions that also report which paths they probed,
  read or removed.
* Configuration (`config.json` is not part of the sources) is passed as
  explicit parameters: the key-to-username index, the upload directory,
  the size limits and the extension allow-list.
-/

namespace SxS

/-- JS truthiness for an optional string value: `null`/`undefined` and the
empty string are falsy. -/
def jsTruthy : Option String → Bool
  | some s => s ≠ ""
  | none => false

/-- Model of `String.prototype.startsWith`. -/
def jsStartsWith (s p : String) : Bool :=
  p.data.isPrefixOf s.data

/-- Whether `pat` occurs as a contiguous run inside a character list. -/
def containsSeq (pat : List Char) : List Char → Bool
  | [] => pat.isEmpty
  | c :: r => pat.isPrefixOf (c :: r) || containsSeq pat r

/-- Model of `String.prototype.includes`. -/
def jsIncludes (s sub : String) : Bool :=
  containsSeq sub.data s.data

/-- Model of Node `path.posix.basename`: drop trailing separators, then keep
the final separator-free component (empty when the input is all separators
or empty). -/
def basename (s : String) : String :=
  let t := (s.data.reverse.dropWhile (fun c => c = '/')).reverse
  String.mk ((t.reverse.takeWhile (fun c => c ≠ '/')).reverse)

/-- Model of Node `path.extname` restricted to a basename argument `b`:
the suffix of `b` from its last dot, empty when `b` has no dot, when the
only dot is the leading character, or when `b` is the literal `..`. -/
def extnameOfBase (b : List Char) : String :=
  let n := (b.reverse.takeWhile (fun c => c ≠ '.')).length
  if n = b.length then ""
  else if b = ['.', '.'] then ""
  else
    let dotPos := b.length - n - 1
    if dotPos = 0 then "" else String.mk (b.drop dotPos)

/-- Model of Node `path.extname`. -/
def extname (p : String) : String :=
  extnameOfBase (basename p).data

/-- ASCII lower-casing, the effect of `String.prototype.toLowerCase` on the
ASCII strings this server manipulates. -/
def jsToLower (s : String) : String :=
  String.mk (s.data.map Char.toLower)

/-- Value of one base-10 digit character, `none` otherwise. -/
def digitVal (c : Char) : Option Nat :=
  if '0' ≤ c ∧ c ≤ '9' then some (c.toNat - '0'.toNat) else none

/-- Fold a digit list into a natural number (most significant first). -/
def digitsToNat (ds : List Char) : Nat :=
  ds.foldl (fun acc c => acc * 10 + (c.toNat - '0'.toNat)) 0

/-- Model of JS `parseInt(s, 10)`: skip leading whitespace, optional sign,
then the longest digit run; `none` models `NaN` (no digits). -/
def jsParseInt (s : String) : Option Int :=
  let cs := s.data.dropWhile (fun c => c = ' ' ∨ c = '\t' ∨ c = '\n' ∨ c = '\r')
  let signed : Bool × List Char :=
    match cs with
    | '-' :: r => (true, r)
    | '+' :: r => (false, r)
    | r => (false, r)
  let ds := signed.2.takeWhile (fun c => (digitVal c).isSome)
  if ds = [] then none
  else some ((if signed.1 then -1 else 1) * (digitsToNat ds : Int))

/-- JS `>=` between `parseInt` results and numbers: false when either side
is `NaN`. -/
def jsGe : Option Int → Option Int → Bool
  | some a, some b => a ≥ b
  | _, _ => false

/-- JS `>` between `parseInt` results and numbers: false when either side
is `NaN`. -/
def jsGt : Option Int → Option Int → Bool
  | some a, some b => a > b
  | _, _ => false

/-- JS subtraction/addition on possibly-`NaN` numbers. -/
def jsSub : Option Int → Option Int → Option Int
  | some a, some b => some (a - b)
  | _, _ => none

/-- JS addition on possibly-`NaN` numbers. -/
def jsAdd : Option Int → Option Int → Option Int
  | some a, some b => some (a + b)
  | _, _ => none

/-- Template-literal rendering of a possibly-`NaN` number. -/
def jsNumToString : Option Int → String
  | some a => toString a
  | none => "NaN"

/-- Replace the first occurrence of `pat` in a character list (the effect of
`String.prototype.replace` with a non-global literal regex). -/
def replaceFirstAux (pat : List Char) : List Char → List Char
  | [] => []
  | c :: r =>
    if pat.isPrefixOf (c :: r) then (c :: r).drop pat.length
    else c :: replaceFirstAux pat r

/-- Replace the first occurrence of `pat` in `s`. -/
def replaceFirst (s pat : String) : String :=
  String.mk (replaceFirstAux pat.data s.data)

/-- Split a character list on a separator character, JS
`String.prototype.split` style (the empty input yields one empty field). -/
def splitOnCharAux (sep : Char) : List Char → List Char → List (List Char)
  | [], acc => [acc.reverse]
  | c :: r, acc =>
    if c = sep then acc.reverse :: splitOnCharAux sep r []
    else splitOnCharAux sep r (c :: acc)

/-- Model of JS `String.prototype.split` with a one-character separator. -/
def jsSplit (s : String) (sep : Char) : List String :=
  (splitOnCharAux sep s.data []).map String.mk

/-!  ## routes/index.js : filename sanitization and the serve/delete flows -/

/-- Embedding of `validateAndSanitizeFilename` (src/routes/index.js 37-51):
reject null/non-string/empty input, take `path.basename`, then reject when
the basename contains `..`, starts with a dot, or is empty. -/
def validateAndSanitizeFilename (raw : Option String) : Option String :=
  match raw with
  | none => none
  | some f =>
    if f = "" then none
    else
      let sanitized := basename f
      if jsIncludes sanitized ".." || jsStartsWith sanitized "." || sanitized.length = 0 then
        none
      else some sanitized

/-- The static content-type table of src/routes/index.js 16-27. -/
def CONTENT_TYPES : List (String × String) :=
  [(".mp4", "video/mp4"), (".webm", "video/webm"), (".m4v", "video/x-m4v"),
   (".mkv", "video/x-matroska"), (".gif", "image/gif"), (".png", "image/png"),
   (".jpg", "image/jpeg"), (".jpeg", "image/jpeg"), (".webp", "image/webp"),
   (".avif", "image/avif")]

/-- The video extension list of src/routes/index.js 29. -/
def VIDEO_EXTENSIONS : List String := [".mp4", ".webm", ".m4v", ".mkv"]

/-- Lookup in the content-type table. -/
def contentTypeFor (ext : String) : Option String :=
  (CONTENT_TYPES.find? (fun p => p.1 == ext)).map (·.2)

/-- How the serve route `GET /f/:filename` ends. -/
inductive ServeOutcome
  | badName
  | forbidden
  | notFound
  | video (p : String)
  | inlineFile (p : String) (contentType : String)
  | download (p : String)
  deriving DecidableEq, Repr

/-- Result of the serve route together with the filesystem paths it probed
or read. -/
structure ServeResult where
  outcome : ServeOutcome
  accessed : List String
  deriving DecidableEq, Repr

/-- Embedding of the `GET /f/:filename` handler (src/routes/index.js
109-172) up to the choice of response kind.  `fsFiles` is the set of paths
present on disk; `path.resolve` is the identity here because `uploadDir` is
absolute and normalized and the sanitized name contains no separator. -/
def serveFlow (fsFiles : List String) (uploadDir : String) (raw : Option String) :
    ServeResult :=
  match validateAndSanitizeFilename raw with
  | none => ⟨.badName, []⟩
  | some filename =>
    let filePath := uploadDir ++ "/" ++ filename
    let resolvedPath := filePath
    if ¬ jsStartsWith resolvedPath uploadDir then ⟨.forbidden, []⟩
    else if ¬ fsFiles.contains filePath then ⟨.notFound, [filePath]⟩
    else
      let ext := jsToLower (extname filename)
      if VIDEO_EXTENSIONS.contains ext then ⟨.video filePath, [filePath]⟩
      else
        match contentTypeFor ext with
        | some ct => ⟨.inlineFile filePath ct, [filePath]⟩
        | none => ⟨.download filePath, [filePath]⟩

/-- How the delete route `GET /delete` responds.  On a sanitization
failure the code calls `response.responseFileNameIsEmpty`, a property the
response module does not export (src/libs/response.js 219 exports the
helper as `fileNameIsEmpty` only), so the call throws a TypeError inside
the `try` and the catch block (src/routes/index.js 351-357) answers the
inline 500 body `Failed to delete file` — that catch response is
`deleteCatch500Resp`. -/
inductive DeleteResp
  | deleteCatch500Resp
  | fileNotFoundResp
  | deletedResp (filename : String)
  deriving DecidableEq, Repr

/-- Result of the delete route together with the filesystem paths it probed
and the paths it unlinked. -/
structure DeleteResult where
  resp : DeleteResp
  accessed : List String
  removed : List String
  deriving DecidableEq, Repr

/-- Embedding of the `GET /delete` handler (src/routes/index.js 318-359).
On a sanitization failure the attempted `response.responseFileNameIsEmpty`
call throws (undefined export, see `DeleteResp`) before any filesystem
access and the catch answers the 500 `Failed to delete file` body; on a
traversal-check failure the code answers with the file-not-found
response. -/
def deleteFlow (fsFiles : List String) (uploadDir : String) (raw : Option String) :
    DeleteResult :=
  match validateAndSanitizeFilename raw with
  | none => ⟨.deleteCatch500Resp, [], []⟩
  | some filename =>
    let filePath := uploadDir ++ "/" ++ filename
    let resolvedPath := filePath
    if ¬ jsStartsWith resolvedPath uploadDir then ⟨.fileNotFoundResp, [], []⟩
    else if ¬ fsFiles.contains filePath then ⟨.fileNotFoundResp, [filePath], []⟩
    else ⟨.deletedResp filename, [filePath], [filePath]⟩

/-!  ## libs/middleware.js : key extraction, authentication, rate limiting -/

/-- An inbound HTTP request as the authentication middleware sees it:
the `key` query parameter, the parsed `key` body field, the `x-api-key`
header, the `authorization` header, and whether the content type includes
`multipart/form-data`. -/
structure AuthRequest where
  queryKey : Option String
  bodyKey : Option String
  xApiKey : Option String
  authorization : Option String
  isMultipart : Bool
  deriving DecidableEq, Repr

/-- Embedding of `extractApiKey` (src/libs/middleware.js 21-44): query
parameter, then body field, then `x-api-key` header, then
`Authorization: Bearer` header; the first truthy value wins. -/
def extractApiKey (r : AuthRequest) : Option String :=
  if jsTruthy r.queryKey then r.queryKey
  else if jsTruthy r.bodyKey then r.bodyKey
  else if jsTruthy r.xApiKey then r.xApiKey
  else
    match r.authorization with
    | some a =>
      if jsTruthy (some a) && jsStartsWith a "Bearer " then
        some (String.mk (a.data.drop 7))
      else none
    | none => none

/-- The configured key-to-username index (`keyToUsername` built at module
load in src/libs/middleware.js 6-14); `config.json` is external, so the
index is a parameter. -/
def lookupKey (km : List (String × String)) (k : String) : Option String :=
  (km.find? (fun p => p.1 == k)).map (·.2)

/-- Embedding of `validateApiKey` (src/libs/middleware.js 51-57): falsy
keys fail, otherwise the index answer (a falsy stored username coalesces to
null via the trailing `|| null`). -/
def validateApiKey (km : List (String × String)) (key : String) : Option String :=
  if key = "" then none
  else
    match lookupKey km key with
    | some u => if u = "" then none else some u
    | none => none

/-- Result of the `keyRequired` middleware. -/
inductive AuthResult
  | deferred
  | emptyKeyResp
  | invalidKeyResp
  | authenticated (username : String)
  deriving DecidableEq, Repr

/-- Embedding of `keyRequired` (src/libs/middleware.js 62-109): extract the
key; with no truthy key a multipart request is passed through for deferred
validation; otherwise no key is `EmptyKey`, a key shorter than 10
characters is `InvalidKey` before any lookup, an unregistered key is
`InvalidKey`, and a registered key authenticates its username. -/
def keyRequired (km : List (String × String)) (r : AuthRequest) : AuthResult :=
  let key := extractApiKey r
  if ¬ jsTruthy key && r.isMultipart then .deferred
  else if ¬ jsTruthy key then .emptyKeyResp
  else
    match key with
    | none => .emptyKeyResp
    | some k =>
      if k.length < 10 then .invalidKeyResp
      else
        match validateApiKey km k with
        | none => .invalidKeyResp
        | some u => .authenticated u

/-- One entry of the rate limiter map: client identity, request count in
the current window, and the window start time. -/
structure RLEntry where
  id : String
  count : Nat
  resetTime : Nat
  deriving DecidableEq, Repr

/-- Lazy purge of stale entries (the cleanup loop in
src/libs/middleware.js 157-161). -/
def rlCleanup (windowMs now : Nat) (m : List RLEntry) : List RLEntry :=
  m.filter (fun e => ¬ (now - e.resetTime > windowMs))

/-- JS `Map.get` over the entry list. -/
def rlLookup (m : List RLEntry) (id : String) : Option RLEntry :=
  m.find? (fun e => e.id == id)

/-- JS `Map.set`: replace the entry for the key in place, or append. -/
def rlSet (m : List RLEntry) (e : RLEntry) : List RLEntry :=
  if (m.find? (fun x => x.id == e.id)).isSome then
    m.map (fun x => if x.id == e.id then e else x)
  else m ++ [e]

/-- The `clientId` selection of the limiter
(src/libs/middleware.js 153): the authenticated username when `req.locals`
carries a truthy one, the network address otherwise. -/
def clientIdOf (localsUsername : Option String) (ip : String) : String :=
  match localsUsername with
  | some u => if u ≠ "" then u else ip
  | none => ip

/-- One pass through the rate-limiting middleware body
(src/libs/middleware.js 152-194): lazy cleanup, fetch-or-reset the entry
for the client, reject with 429 when the count already reached the limit,
otherwise increment and pass.  Returns whether the request passed and the
updated map. -/
def rateLimitStep (maxRequests windowMs : Nat) (m : List RLEntry)
    (clientId : String) (now : Nat) : Bool × List RLEntry :=
  let m1 := rlCleanup windowMs now m
  let fetched : Option RLEntry :=
    match rlLookup m1 clientId with
    | some e => if now - e.resetTime > windowMs then none else some e
    | none => none
  let cur : RLEntry × List RLEntry :=
    match fetched with
    | some e => (e, m1)
    | none =>
      let e : RLEntry := ⟨clientId, 0, now⟩
      (e, rlSet m1 e)
  if cur.1.count ≥ maxRequests then (false, cur.2)
  else (true, rlSet cur.2 ⟨clientId, cur.1.count + 1, cur.1.resetTime⟩)

/-- Run the limiter over a trace of (identity, time) requests, collecting
the pass/reject outcomes. -/
def rateLimitRun (maxRequests windowMs : Nat) :
    List (String × Nat) → List RLEntry → List Bool × List RLEntry
  | [], m => ([], m)
  | (id, t) :: rest, m =>
    let s := rateLimitStep maxRequests windowMs m id t
    let r := rateLimitRun maxRequests windowMs rest s.2
    (s.1 :: r.1, r.2)

/-!  ## libs/response.js : envelopes -/

/-- The `error` object of the error envelope: `message` always, `code` and
`timestamp` as `sendError` fills them, `fix` only when truthy. -/
structure ErrObj where
  message : String
  code : Option String
  fix : Option String
  timestamp : Option String
  deriving DecidableEq, Repr

/-- A response body: the uniform success envelope
`success:true/message/data/timestamp` or the error envelope
`success:false/error`.  `dataDesc` stands for the (arbitrary JSON) `data`
member. -/
inductive Envelope
  | ok (message : String) (dataDesc : String) (timestamp : String)
  | err (e : ErrObj)
  deriving DecidableEq, Repr

/-- Embedding of `sendSuccess` (src/libs/response.js 39-46). -/
def sendSuccess (message dataDesc now : String) : Nat × Envelope :=
  (200, .ok message dataDesc now)

/-- Embedding of `sendError` (src/libs/response.js 56-71): the error object
always carries `message`, `code` (null when not supplied) and `timestamp`;
`fix` is added only when truthy. -/
def sendError (status : Nat) (message : String) (fix code : Option String)
    (now : String) : Nat × Envelope :=
  (status, .err ⟨message, code, if jsTruthy fix then fix else none, some now⟩)

/-- `responseEmptyKey` (src/libs/response.js 74-82). -/
def responseEmptyKey (now : String) : Nat × Envelope :=
  sendError 400 "API key is required" (some "Provide a valid API key in the request")
    (some "EMPTY_KEY") now

/-- `responseInvalidKey` (src/libs/response.js 84-92). -/
def responseInvalidKey (now : String) : Nat × Envelope :=
  sendError 401 "Invalid API key" (some "Provide a valid API key") (some "INVALID_KEY") now

/-- `responseNoFileUploaded` (src/libs/response.js 95-103). -/
def responseNoFileUploaded (now : String) : Nat × Envelope :=
  sendError 400 "No file was uploaded" (some "Select and upload a file") (some "NO_FILE") now

/-- `responseInvalidFileExtension` (src/libs/response.js 105-113). -/
def responseInvalidFileExtension (now : String) : Nat × Envelope :=
  sendError 400 "Invalid file extension" (some "Upload a file with an allowed extension")
    (some "INVALID_EXTENSION") now

/-- `responseFileTooLarge` (src/libs/response.js 115-123). -/
def responseFileTooLarge (now : String) : Nat × Envelope :=
  sendError 413 "File exceeds size limit"
    (some "Upload a smaller file or contact administrator") (some "FILE_TOO_LARGE") now

/-- `responseFileDoesntExists` (src/libs/response.js 126-134). -/
def responseFileDoesntExists (now : String) : Nat × Envelope :=
  sendError 404 "File not found" (some "Verify the filename and try again")
    (some "FILE_NOT_FOUND") now

/-- `responseFileNameIsEmpty` (src/libs/response.js 136-144). -/
def responseFileNameIsEmpty (now : String) : Nat × Envelope :=
  sendError 400 "Filename is required" (some "Provide a valid filename")
    (some "EMPTY_FILENAME") now

/-- `responseRateLimited` (src/libs/response.js 164-176). -/
def responseRateLimited (now : String) : Nat × Envelope :=
  sendError 429 "Too many requests" (some "Please wait before making more requests")
    (some "RATE_LIMITED") now

/-- `responseServerError` (src/libs/response.js 179-187). -/
def responseServerError (now : String) : Nat × Envelope :=
  sendError 500 "Internal server error" (some "Please try again later or contact support")
    (some "SERVER_ERROR") now

/-- `responseValidationError` (src/libs/response.js 190-198). -/
def responseValidationError (now : String) : Nat × Envelope :=
  sendError 400 "Validation failed" (some "Fix the validation errors and try again")
    (some "VALIDATION_ERROR") now

/-- `responseUploaded` (src/libs/response.js 147-157). -/
def responseUploaded (fileUrl deleteUrl now : String) : Nat × Envelope :=
  sendSuccess "File uploaded successfully"
    ("file with url " ++ fileUrl ++ " and delete_url " ++ deleteUrl) now

/-- `responseDeleted` (src/libs/response.js 159-161). -/
def responseDeleted (fileName now : String) : Nat × Envelope :=
  sendSuccess ("File " ++ fileName ++ " deleted successfully")
    ("filename " ++ fileName) now

/-- The inline 429 body emitted by the rate limiter itself
(src/libs/middleware.js 176-182): only `message` and `fix`, no `code`, no
`timestamp`. -/
def rateLimit429Body : ErrObj :=
  ⟨"Too many requests", none, some "Please wait before making more requests", none⟩

/-- The inline body of the global error handler (src/app.js 399-402). -/
def appGlobal500Body : ErrObj := ⟨"Internal server error", none, none, none⟩

/-- The inline body of the 404 handler (src/app.js 408-411). -/
def app404Body : ErrObj := ⟨"Not found", none, none, none⟩

/-- The inline 500 body of the upload handler catch block
(src/routes/index.js 282-285). -/
def uploadCatch500Body : ErrObj := ⟨"Internal server error", none, none, none⟩

/-!  ## routes/index.js : video range handling -/

/-- What the video handler streams to the client. -/
inductive VideoBody
  | empty
  | span (first last : Option Int)
  | whole
  deriving DecidableEq, Repr

/-- The observable pieces of the video response: status, the headers the
handler sets, and the streamed body. -/
structure VideoResp where
  status : Nat
  contentRange : Option String
  acceptRanges : Option String
  contentLength : Option Int
  contentType : Option String
  body : VideoBody
  deriving DecidableEq, Repr

/-- Start value the code parses out of a `Range` header
(src/routes/index.js 182-183): strip the first `bytes=`, split on `-`,
`parseInt` the first part. -/
def rangeStartOf (range : String) : Option Int :=
  jsParseInt (jsSplit (replaceFirst range "bytes=") '-').headI

/-- End value the code computes (src/routes/index.js 184): the second
`-`-part when truthy, else `fileSize - 1`. -/
def rangeEndOf (range : String) (fileSize : Nat) : Option Int :=
  let parts := jsSplit (replaceFirst range "bytes=") '-'
  match parts[1]? with
  | some p => if p = "" then some ((fileSize : Int) - 1) else jsParseInt p
  | none => some ((fileSize : Int) - 1)

/-- Embedding of `handleVideoFile` (src/routes/index.js 177-231).  With a
`Range` header: parse start and end; when `start >= fileSize`, `end >=
fileSize` or `start > end` (JS comparisons, false on `NaN`) respond 416
with `Content-Range: bytes */fileSize` and no body; otherwise respond 206
with the span headers and stream exactly the span.  Without a header,
stream the whole file with 200. -/
def handleVideoFile (fileSize : Nat) (rangeHeader : Option String)
    (contentType : String) : VideoResp :=
  match rangeHeader with
  | some range =>
    let start := rangeStartOf range
    let endV := rangeEndOf range fileSize
    if jsGe start (some (fileSize : Int)) || jsGe endV (some (fileSize : Int))
        || jsGt start endV then
      ⟨416, some ("bytes */" ++ toString fileSize), none, none, none, .empty⟩
    else
      let chunksize := jsAdd (jsSub endV start) (some 1)
      ⟨206,
       some ("bytes " ++ jsNumToString start ++ "-" ++ jsNumToString endV ++ "/"
              ++ toString fileSize),
       some "bytes", chunksize, some contentType, .span start endV⟩
  | none =>
    ⟨200, none, some "bytes", some (fileSize : Int), some contentType, .whole⟩

/-!  ## routes/index.js : the upload response handler -/

/-- Unreserved characters of `encodeURIComponent`: ASCII alphanumerics and
the nine marks (codes 33 `!`, 39-42 apostrophe `(` `)` `*`, 45 `-`, 46 `.`,
95 `_`, 126 `~`). -/
def uriUnreserved (c : Char) : Bool :=
  ('A' ≤ c && c ≤ 'Z') || ('a' ≤ c && c ≤ 'z') || ('0' ≤ c && c ≤ '9') ||
    [33, 39, 40, 41, 42, 45, 46, 95, 126].contains c.toNat

/-- Upper-case hex digit of a value below 16. -/
def hexDigit (n : Nat) : Char :=
  if n < 10 then Char.ofNat (48 + n) else Char.ofNat (65 + n - 10)

/-- UTF-8 bytes of one character (standard 1-4 byte encoding). -/
def utf8Bytes (c : Char) : List Nat :=
  let n := c.toNat
  if n < 0x80 then [n]
  else if n < 0x800 then [0xC0 + n / 64, 0x80 + n % 64]
  else if n < 0x10000 then [0xE0 + n / 4096, 0x80 + n / 64 % 64, 0x80 + n % 64]
  else [0xF0 + n / 262144, 0x80 + n / 4096 % 64, 0x80 + n / 64 % 64, 0x80 + n % 64]

/-- Model of JS `encodeURIComponent`: unreserved characters pass through,
everything else becomes percent-encoded UTF-8 bytes. -/
def encodeURIComponent (s : String) : String :=
  String.join (s.data.map (fun c =>
    if uriUnreserved c then String.mk [c]
    else String.join ((utf8Bytes c).map (fun b =>
      String.mk ['%', hexDigit (b / 16), hexDigit (b % 16)]))))

/-- JS template interpolation of `encodeURIComponent(req.body.key)` when the
body has no `key` field: `undefined` is coerced to the string
`"undefined"`, which `encodeURIComponent` leaves unchanged. -/
def encodeURIComponentOpt : Option String → String
  | some k => encodeURIComponent k
  | none => "undefined"

/-- The `req.file` record (multer result or the synthesized large-file
one). -/
structure ReqFile where
  filename : String
  path : String
  originalname : String
  deriving DecidableEq, Repr

/-- The context the final `POST /upload` handler runs in: `req.locals` as
the middleware may have filled it, the parsed body `key` field, and
`req.file` as the ingestion middleware left it. -/
structure UploadCtx where
  localsUsername : Option String
  bodyKey : Option String
  file : Option ReqFile
  deriving DecidableEq, Repr

/-- How the `POST /upload` success handler answers. -/
inductive UploadResp
  | invalidKeyResp
  | emptyKeyResp
  | noFileResp
  | uploadedResp (fileUrl deleteUrl : String)
  deriving DecidableEq, Repr

/-- Result of the upload handler paired with the filesystem deletions it
performs (the handler performs none). -/
structure UploadOutcome where
  resp : UploadResp
  removed : List String
  deriving DecidableEq, Repr

/-- Embedding of the `POST /upload` success handler
(src/routes/index.js 241-287): when the middleware did not authenticate,
re-check `req.body.key` against the key index (no deletion of the already
written `req.file` happens on failure); then require `req.file`; then build
`file.url` from the static server URL and `delete_url` from
`req.body.key`. -/
def uploadHandler (km : List (String × String)) (serverUrl staticUrl : String)
    (ctx : UploadCtx) : UploadOutcome :=
  let authed : Option UploadOutcome :=
    if jsTruthy ctx.localsUsername then none
    else
      match ctx.bodyKey with
      | some k =>
        if k = "" then some ⟨.emptyKeyResp, []⟩
        else
          match lookupKey km k with
          | some u => if u = "" then some ⟨.invalidKeyResp, []⟩ else none
          | none => some ⟨.invalidKeyResp, []⟩
      | none => some ⟨.emptyKeyResp, []⟩
  match authed with
  | some out => out
  | none =>
    match ctx.file with
    | none => ⟨.noFileResp, []⟩
    | some f =>
      let fileUrl := staticUrl ++ f.filename
      let deleteUrl := serverUrl ++ "/delete?filename=" ++ encodeURIComponent f.filename
        ++ "&key=" ++ encodeURIComponentOpt ctx.bodyKey
      ⟨.uploadedResp fileUrl deleteUrl, []⟩

/-!  ## libs/handleLargeFile.js : the streaming (large-file) ingestion path

The handler drives a busboy parser.  The busboy dependency is modelled
from its documented limit semantics: when the file part exceeds the
configured `fileSize` limit, busboy truncates the part stream after
exactly `fileSize` bytes and signals this only through a `limit` event on
the file stream (and the `truncated` flag); it does not emit an `error`
event, and `finish` still fires.  The handler in
src/libs/handleLargeFile.js registers no `limit` listener, so the
truncation is invisible to it. -/

/-- Streaming-path configuration (from `config.json`, a parameter here):
the regular-path size limit that triggers streaming, the hard streaming
ceiling (`config.largeFileSizeLimit || 5 GiB`), the extension check flag
and allow-list, and the upload directory. -/
structure StreamConfig where
  fileSizeLimit : Nat
  largeFileSizeLimit : Nat
  extCheckEnabled : Bool
  extensionsAllowed : List String
  uploadDirectory : String
  deriving DecidableEq, Repr

/-- A streaming upload request: the declared `Content-Length`, the
`largeFile=true` query flag, and the single file part (original filename
and the number of bytes the client sends for it), if any. -/
structure StreamReq where
  contentLength : Nat
  largeFileFlag : Bool
  filePart : Option (String × Nat)
  deriving DecidableEq, Repr

/-- Embedding of `isFileExtensionAllowed`
(src/libs/handleLargeFile.js 26-33). -/
def isFileExtensionAllowed (cfg : StreamConfig) (filename : String) : Bool :=
  if ¬ cfg.extCheckEnabled then true
  else cfg.extensionsAllowed.contains (jsToLower (extname filename))

/-- Embedding of `generateUniqueFilename`
(src/libs/handleLargeFile.js 40-46); the formatted timestamp and the
random part are parameters (they come from the clock and the RNG). -/
def generateUniqueFilename (formattedDate randomPart : String)
    (originalFilename : String) : String :=
  formattedDate ++ "_" ++ randomPart ++ jsToLower (extname originalFilename)

/-- The synthesized `req.file` of the streaming path (src/libs/
handleLargeFile.js 203-209). -/
structure StreamFile where
  filename : String
  path : String
  originalname : String
  size : Nat
  mimetype : String
  deriving DecidableEq, Repr

/-- How a run of `handleLargeUpload` ends. -/
inductive StreamOutcome
  | passedToNext
  | noFilenameError
  | invalidExtensionResp
  | noFileResp
  | completed (reqFile : StreamFile)
  deriving DecidableEq, Repr

/-- Result of a streaming run: the outcome, and the destination file left
on disk (path and byte count), if any. -/
structure StreamResult where
  outcome : StreamOutcome
  fileOnDisk : Option (String × Nat)
  deriving DecidableEq, Repr

/-- Embedding of `handleLargeUpload` (src/libs/handleLargeFile.js 69-256)
for a run without I/O errors or client disconnect.  The handler is skipped
unless the declared length exceeds `fileSizeLimit` or the `largeFile` flag
is set.  A missing file part reaches `finish` with no filename and answers
`noFileUploaded`; an empty filename or a disallowed extension discards the
part before any write stream is opened; otherwise the part is piped to the
destination, busboy delivering at most `largeFileSizeLimit` bytes (its
`fileSize` limit, truncation signalled only by an unhandled `limit`
event), and `finish` synthesizes `req.file` from the bytes received. -/
def handleLargeUpload (cfg : StreamConfig) (formattedDate randomPart : String)
    (req : StreamReq) : StreamResult :=
  let isLargeFile := cfg.fileSizeLimit < req.contentLength || req.largeFileFlag
  if ¬ isLargeFile then ⟨.passedToNext, none⟩
  else
    match req.filePart with
    | none => ⟨.noFileResp, none⟩
    | some (originalFilename, bytes) =>
      if originalFilename = "" then ⟨.noFilenameError, none⟩
      else if ¬ isFileExtensionAllowed cfg originalFilename then
        ⟨.invalidExtensionResp, none⟩
      else
        let filename := generateUniqueFilename formattedDate randomPart originalFilename
        let filePath := cfg.uploadDirectory ++ "/" ++ filename
        let bytesReceived := min bytes cfg.largeFileSizeLimit
        ⟨.completed ⟨filename, filePath, filename, bytesReceived, "application/octet-stream"⟩,
         some (filePath, bytesReceived)⟩

/-!  ## app.js : the /upload middleware pipeline (mounting order) -/

/-- What the mounted `/upload` pipeline did with a request: which identity
the rate limiter counted under, and how authentication ended afterwards.
Mounting order per src/app.js 383-387: `app.use` of the rate limiter at
line 383 precedes `app.use` of the router (whose `keyRequired` sets
`req.locals.username`) at line 387, so the limiter runs first. -/
structure UploadPipelineTrace where
  rateKeyUsed : String
  rateAllowed : Bool
  auth : Option AuthResult
  deriving DecidableEq, Repr

/-- Embedding of the mounted `/upload` pipeline for one request: the rate
limiter executes with `req.locals` still unset (`none`), then, when the
request passes, `keyRequired` authenticates (`auth = none` when the 429
cut the request short). -/
def uploadPipeline (km : List (String × String)) (maxRequests windowMs : Nat)
    (m : List RLEntry) (r : AuthRequest) (ip : String) (now : Nat) :
    UploadPipelineTrace × List RLEntry :=
  let rateKey := clientIdOf none ip
  let s := rateLimitStep maxRequests windowMs m rateKey now
  if s.1 then (⟨rateKey, true, some (keyRequired km r)⟩, s.2)
  else (⟨rateKey, false, none⟩, s.2)

/-!  ## Theorems -/

/-- Every character of a `basename` result is a non-separator. -/
lemma basename_no_slash {s : String} {c : Char} (h : c ∈ (basename s).data) :
    c ≠ '/' := by
  unfold basename at h
  have h2 := List.mem_reverse.mp h
  have h3 := List.mem_takeWhile_imp h2
  simpa using h3

/-- A name accepted by the sanitizer contains no `..`, no leading dot, is
nonempty, and contains no separator. -/
lemma validate_props {raw : Option String} {n : String}
    (h : validateAndSanitizeFilename raw = some n) :
    jsIncludes n ".." = false ∧ jsStartsWith n "." = false ∧ n ≠ "" ∧
      ∀ c ∈ n.data, c ≠ '/' := by
  match raw with
  | none => simp [validateAndSanitizeFilename] at h
  | some f =>
    unfold validateAndSanitizeFilename at h
    by_cases hf : f = ""
    · simp [hf] at h
    · simp only [hf, if_false] at h
      by_cases hc : (jsIncludes (basename f) ".." || jsStartsWith (basename f) "."
          || decide ((basename f).length = 0)) = true
      · simp [hc] at h
      · simp only [hc, Bool.false_eq_true, if_false, Option.some.injEq] at h
        subst h
        simp only [Bool.or_eq_true, decide_eq_true_eq, not_or] at hc
        refine ⟨by simpa using hc.1.1, by simpa using hc.1.2, ?_, ?_⟩
        · intro hempty
          exact hc.2 (by simp [hempty])
        · intro c hcmem
          exact basename_no_slash hcmem

/-- Appending places the left string as a prefix. -/
lemma jsStartsWith_append (d s : String) : jsStartsWith (d ++ s) d = true := by
  unfold jsStartsWith
  rw [String.data_append, List.isPrefixOf_iff_prefix]
  exact List.prefix_append d.data s.data

/-- Every path the serve flow touches is the upload-root join of the
sanitized name. -/
lemma serve_accessed_sub (fsFiles : List String) (uploadDir : String)
    {raw : Option String} {n : String}
    (h : validateAndSanitizeFilename raw = some n) :
    ∀ p ∈ (serveFlow fsFiles uploadDir raw).accessed, p = uploadDir ++ "/" ++ n := by
  intro p hp
  unfold serveFlow at hp
  rw [h] at hp
  have hsw := jsStartsWith_append uploadDir ("/" ++ n)
  rw [← String.append_assoc] at hsw
  simp only [hsw] at hp
  by_cases hmem : fsFiles.contains (uploadDir ++ "/" ++ n)
  · simp only [hmem] at hp
    by_cases hvid : VIDEO_EXTENSIONS.contains (jsToLower (extname n))
    · simp only [hvid] at hp
      simpa using hp
    · simp only [hvid] at hp
      rcases hct : contentTypeFor (jsToLower (extname n)) with _ | ct <;>
        · rw [hct] at hp
          simpa using hp
  · simp only [hmem] at hp
    simpa using hp

/-- Every path the delete flow probes or removes is the upload-root join of
the sanitized name. -/
lemma delete_accessed_sub (fsFiles : List String) (uploadDir : String)
    {raw : Option String} {n : String}
    (h : validateAndSanitizeFilename raw = some n) :
    (∀ p ∈ (deleteFlow fsFiles uploadDir raw).accessed, p = uploadDir ++ "/" ++ n) ∧
      ∀ p ∈ (deleteFlow fsFiles uploadDir raw).removed, p = uploadDir ++ "/" ++ n := by
  unfold deleteFlow
  rw [h]
  have hsw := jsStartsWith_append uploadDir ("/" ++ n)
  rw [← String.append_assoc] at hsw
  by_cases hmem : (uploadDir ++ "/" ++ n) ∈ fsFiles <;>
    simp [hsw, hmem]

/-- Claim C1 counterexample: for the filename argument `../secret.png`,
which contains `..`, sanitization does not fail: it returns the normalized
name `secret.png`, and both the serve and the delete operation then access
(and delete deletes) the file `secret.png` under the upload root. -/
theorem claim_C1_counterexample :
    validateAndSanitizeFilename (some "../secret.png") = some "secret.png" ∧
    serveFlow ["/uploads/secret.png"] "/uploads" (some "../secret.png") =
      ⟨.inlineFile "/uploads/secret.png" "image/png", ["/uploads/secret.png"]⟩ ∧
    deleteFlow ["/uploads/secret.png"] "/uploads" (some "../secret.png") =
      ⟨.deletedResp "secret.png", ["/uploads/secret.png"], ["/uploads/secret.png"]⟩ := by
  refine ⟨by decide, by decide, by decide⟩

/-- Claim C1 (amended): the sanitizer does not reject every name containing
`..` or an embedded separator; it first normalizes with `basename` and only
rejects when the resulting basename contains `..`, starts with a dot, or is
empty.  When it rejects, serve answers 400 Invalid filename, and delete
throws at the undefined `response.responseFileNameIsEmpty` export so its
catch answers the 500 `Failed to delete file` body — in both cases with no
filesystem access; when it accepts, the returned name has no separator, no
`..` and no leading dot, and the only path serve or delete ever probes,
reads or removes is that basename joined directly under the upload root —
so no path outside the upload root is touched, but a file under the root
may be served or deleted under the stripped name. -/
theorem claim_C1_amended (fsFiles : List String) (uploadDir : String)
    (raw : Option String) :
    (validateAndSanitizeFilename raw = none →
      serveFlow fsFiles uploadDir raw = ⟨.badName, []⟩ ∧
      deleteFlow fsFiles uploadDir raw = ⟨.deleteCatch500Resp, [], []⟩) ∧
    (∀ n, validateAndSanitizeFilename raw = some n →
      (jsIncludes n ".." = false ∧ jsStartsWith n "." = false ∧ n ≠ "" ∧
        (∀ c ∈ n.data, c ≠ '/')) ∧
      (∀ p, (p ∈ (serveFlow fsFiles uploadDir raw).accessed ∨
             p ∈ (deleteFlow fsFiles uploadDir raw).accessed ∨
             p ∈ (deleteFlow fsFiles uploadDir raw).removed) →
        p = uploadDir ++ "/" ++ n)) := by
  constructor
  · intro h
    constructor
    · unfold serveFlow
      rw [h]
    · unfold deleteFlow
      rw [h]
  · intro n h
    refine ⟨validate_props h, ?_⟩
    intro p hp
    rcases hp with hp | hp | hp
    · exact serve_accessed_sub fsFiles uploadDir h p hp
    · exact (delete_accessed_sub fsFiles uploadDir h).1 p hp
    · exact (delete_accessed_sub fsFiles uploadDir h).2 p hp

/-- Claim C1 amended, witnessed at a concrete traversal input and a
concrete clean input. -/
theorem claim_C1_amended_witness :
    validateAndSanitizeFilename (some "..") = none ∧
    serveFlow ["/uploads/a.png"] "/uploads" (some "..") = ⟨.badName, []⟩ ∧
    validateAndSanitizeFilename (some "../a.png") = some "a.png" ∧
    ("/uploads/a.png" = "/uploads" ++ "/" ++ "a.png") := by
  refine ⟨by decide, ?_, by decide, ?_⟩
  · exact ((claim_C1_amended ["/uploads/a.png"] "/uploads" (some "..")).1 (by decide)).1
  · exact ((claim_C1_amended ["/uploads/a.png"] "/uploads" (some "../a.png")).2 "a.png"
      (by decide)).2 "/uploads/a.png" (Or.inl (by decide))

/-- Claim C4: for a stored video file of size `fileSize`, a parsed range
with `start >= fileSize`, `end >= fileSize` or `start > end` yields 416
with `Content-Range: bytes */fileSize` and no body; any other parsed range
yields 206 with `Content-Range: bytes start-end/fileSize`,
`Accept-Ranges: bytes`, `Content-Length: end-start+1`, and exactly the span
`start..end` streamed (a missing end part parses as `fileSize - 1`). -/
theorem claim_C4_video_range (fileSize : Nat) (ct hdr : String) (s e : Int)
    (hs : rangeStartOf hdr = some s) (he : rangeEndOf hdr fileSize = some e) :
    ((s ≥ (fileSize : Int) ∨ e ≥ (fileSize : Int) ∨ s > e) →
      handleVideoFile fileSize (some hdr) ct =
        ⟨416, some ("bytes */" ++ toString fileSize), none, none, none, .empty⟩) ∧
    ((s < (fileSize : Int) ∧ e < (fileSize : Int) ∧ s ≤ e) →
      handleVideoFile fileSize (some hdr) ct =
        ⟨206,
         some ("bytes " ++ toString s ++ "-" ++ toString e ++ "/" ++ toString fileSize),
         some "bytes", some (e - s + 1), some ct, .span (some s) (some e)⟩) := by
  constructor
  · intro hcond
    have hb : (jsGe (some s) (some (fileSize : Int)) || jsGe (some e) (some (fileSize : Int))
        || jsGt (some s) (some e)) = true := by
      simp only [jsGe, jsGt, Bool.or_eq_true, decide_eq_true_eq]
      tauto
    simp [handleVideoFile, hs, he, hb]
  · intro hcond
    have hb : (jsGe (some s) (some (fileSize : Int)) || jsGe (some e) (some (fileSize : Int))
        || jsGt (some s) (some e)) = false := by
      simp only [jsGe, jsGt, Bool.or_eq_false_iff, decide_eq_false_iff_not]
      omega
    simp [handleVideoFile, hs, he, hb, jsNumToString, jsAdd, jsSub]

/-- Claim C4, witnessed: `bytes=0-99` on a 1000-byte file parses to the
span 0..99 and yields the 206 response, and `bytes=1000-1010` yields the
416 response. -/
theorem claim_C4_video_range_witness :
    rangeStartOf "bytes=0-99" = some 0 ∧ rangeEndOf "bytes=0-99" 1000 = some 99 ∧
    handleVideoFile 1000 (some "bytes=0-99") "video/mp4" =
      ⟨206, some "bytes 0-99/1000", some "bytes", some 100, some "video/mp4",
       .span (some 0) (some 99)⟩ ∧
    handleVideoFile 1000 (some "bytes=1000-1010") "video/mp4" =
      ⟨416, some "bytes */1000", none, none, none, .empty⟩ := by
  refine ⟨by decide, by decide, ?_, ?_⟩
  · rw [(claim_C4_video_range 1000 "video/mp4" "bytes=0-99" 0 99 (by decide) (by decide)).2
      (by constructor <;> [decide; constructor <;> decide])]
    decide
  · rw [(claim_C4_video_range 1000 "video/mp4" "bytes=1000-1010" 1000 1010 (by decide)
      (by decide)).1 (Or.inl (by decide))]
    decide

/-- Claim C5: authentication outcome is a function of the extracted key:
a registered key of admissible length authenticates its mapped username;
a truthy key that is unregistered, or any truthy key shorter than 10
characters (rejected before the index lookup, whatever the index holds),
yields InvalidKey; a non-multipart request with no truthy key from any
source yields EmptyKey; and the key is extracted from the query parameter,
body field, `x-api-key` header and `Authorization: Bearer` header in that
precedence order, first truthy value winning. -/
theorem claim_C5_authentication (km : List (String × String)) (r : AuthRequest) :
    (∀ K U, lookupKey km K = some U → U ≠ "" → 10 ≤ K.length →
      extractApiKey r = some K → keyRequired km r = .authenticated U) ∧
    (∀ K, K ≠ "" → lookupKey km K = none → extractApiKey r = some K →
      keyRequired km r = .invalidKeyResp) ∧
    (∀ K, K ≠ "" → K.length < 10 → extractApiKey r = some K →
      keyRequired km r = .invalidKeyResp) ∧
    (r.isMultipart = false → jsTruthy (extractApiKey r) = false →
      keyRequired km r = .emptyKeyResp) ∧
    (∀ k, r.queryKey = some k → k ≠ "" → extractApiKey r = some k) ∧
    (∀ k, jsTruthy r.queryKey = false → r.bodyKey = some k → k ≠ "" →
      extractApiKey r = some k) ∧
    (∀ k, jsTruthy r.queryKey = false → jsTruthy r.bodyKey = false →
      r.xApiKey = some k → k ≠ "" → extractApiKey r = some k) ∧
    (∀ t, jsTruthy r.queryKey = false → jsTruthy r.bodyKey = false →
      jsTruthy r.xApiKey = false → r.authorization = some ("Bearer " ++ t) →
      extractApiKey r = some t) := by
  refine ⟨?_, ?_, ?_, ?_, ?_, ?_, ?_, ?_⟩
  · intro K U hlk hU hlen hex
    have hne : K ≠ "" := by
      intro hK
      subst hK
      simp at hlen
    have hnot : ¬ K.length < 10 := by omega
    simp [keyRequired, hex, jsTruthy, hne, hnot, validateApiKey, hlk, hU]
  · intro K hne hlk hex
    simp [keyRequired, hex, jsTruthy, hne, validateApiKey, hlk]
  · intro K hne hlen hex
    simp [keyRequired, hex, jsTruthy, hne, hlen]
  · intro hmp hfalsy
    simp [keyRequired, hmp, hfalsy]
  · intro k hq hk
    simp [extractApiKey, hq, jsTruthy, hk]
  · intro k hq hb hk
    unfold extractApiKey
    rw [hq, hb]
    simp [jsTruthy, hk]
  · intro k hq hb hx hk
    unfold extractApiKey
    rw [hq, hb, hx]
    simp [jsTruthy, hk]
  · intro t hq hb hx ha
    have hsw : jsStartsWith ("Bearer " ++ t) "Bearer " = true :=
      jsStartsWith_append "Bearer " t
    have hne : ("Bearer " ++ t) ≠ "" := by
      intro hcontra
      have : ("Bearer " ++ t).data = "".data := by rw [hcontra]
      rw [String.data_append] at this
      simp at this
    have hdrop : (("Bearer " ++ t).data.drop 7) = t.data := by
      rw [String.data_append]
      have h7 : ("Bearer ".data).length = 7 := by decide
      rw [← h7]
      exact List.drop_left "Bearer ".data t.data
    unfold extractApiKey
    rw [hq, hb, hx, ha]
    simp [jsTruthy, hne, hsw, hdrop]

/-- Claim C5, witnessed on a concrete key index and concrete requests for
each conjunct. -/
theorem claim_C5_authentication_witness :
    keyRequired [("abcdefghij", "alice")] ⟨some "abcdefghij", none, none, none, false⟩ =
      .authenticated "alice" ∧
    keyRequired [("abcdefghij", "alice")] ⟨some "zzzzzzzzzz", none, none, none, false⟩ =
      .invalidKeyResp ∧
    keyRequired [("short", "bob")] ⟨some "short", none, none, none, false⟩ =
      .invalidKeyResp ∧
    keyRequired [("abcdefghij", "alice")] ⟨none, none, none, none, false⟩ =
      .emptyKeyResp ∧
    extractApiKey ⟨none, none, none, some "Bearer abcdefghij", false⟩ =
      some "abcdefghij" := by
  have h := claim_C5_authentication [("abcdefghij", "alice")]
  refine ⟨(h _).1 "abcdefghij" "alice" (by decide) (by decide) (by decide) (by decide),
    (h _).2.1 "zzzzzzzzzz" (by decide) (by decide) (by decide), ?_, ?_, ?_⟩
  · exact (claim_C5_authentication [("short", "bob")] _).2.2.1 "short" (by decide)
      (by decide) (by decide)
  · exact (h _).2.2.2.1 (by decide) (by decide)
  · have h8 := (h ⟨none, none, none, some ("Bearer " ++ "abcdefghij"), false⟩).2.2.2.2.2.2.2
      "abcdefghij" (by decide) (by decide) (by decide) rfl
    simpa using h8

/-- A request inside the window from a singleton state with remaining
budget passes and increments the count. -/
lemma rlStep_within (N W c : Nat) (id : String) (t0 t : Nat)
    (h : t - t0 ≤ W) (hc : c < N) :
    rateLimitStep N W [⟨id, c, t0⟩] id t = (true, [⟨id, c + 1, t0⟩]) := by
  have h1 : t ≤ W + t0 := by omega
  have h2 : ¬ W < t - t0 := by omega
  have hge : ¬ N ≤ c := by omega
  simp [rateLimitStep, rlCleanup, rlLookup, rlSet, h1, h2, hge]

/-- A request inside the window from a singleton state at the limit is
rejected and leaves the state unchanged. -/
lemma rlStep_full (N W c : Nat) (id : String) (t0 t : Nat)
    (h : t - t0 ≤ W) (hc : c ≥ N) :
    rateLimitStep N W [⟨id, c, t0⟩] id t = (false, [⟨id, c, t0⟩]) := by
  have h1 : t ≤ W + t0 := by omega
  have h2 : ¬ W < t - t0 := by omega
  have hge : N ≤ c := hc
  simp [rateLimitStep, rlCleanup, rlLookup, rlSet, h1, h2, hge]

/-- A request after the window elapsed resets the entry: the stale entry is
purged, a fresh window starts at the request time, and with a positive
limit the request passes. -/
lemma rlStep_reset (N W c : Nat) (id : String) (t0 t : Nat)
    (h : t - t0 > W) (hN : 0 < N) :
    rateLimitStep N W [⟨id, c, t0⟩] id t = (true, [⟨id, 1, t⟩]) := by
  have h1 : ¬ t ≤ W + t0 := by omega
  have hge : ¬ N ≤ 0 := by omega
  simp [rateLimitStep, rlCleanup, rlLookup, rlSet, h1, hge]

/-- The first request of an identity creates its window and passes when the
limit is positive. -/
lemma rlStep_fresh (N W : Nat) (id : String) (t : Nat) (hN : 0 < N) :
    rateLimitStep N W [] id t = (true, [⟨id, 1, t⟩]) := by
  have hge : ¬ N ≤ 0 := by omega
  simp [rateLimitStep, rlCleanup, rlLookup, rlSet, hge]

/-- Running the limiter over concatenated traces runs them in sequence. -/
lemma rlRun_append (N W : Nat) (l1 l2 : List (String × Nat)) (m : List RLEntry) :
    rateLimitRun N W (l1 ++ l2) m =
      ((rateLimitRun N W l1 m).1 ++ (rateLimitRun N W l2 (rateLimitRun N W l1 m).2).1,
       (rateLimitRun N W l2 (rateLimitRun N W l1 m).2).2) := by
  induction l1 generalizing m with
  | nil => simp [rateLimitRun]
  | cons hd tl ih =>
    obtain ⟨id, t⟩ := hd
    simp [rateLimitRun, ih]

/-- A run of in-window requests with enough remaining budget passes them
all, counting them up in the same window. -/
lemma rlRun_fill (N W : Nat) (id : String) (t0 : Nat) :
    ∀ (ts : List Nat) (c : Nat), (∀ t ∈ ts, t - t0 ≤ W) → c + ts.length ≤ N →
      rateLimitRun N W (ts.map (fun t => (id, t))) [⟨id, c, t0⟩] =
        (List.replicate ts.length true, [⟨id, c + ts.length, t0⟩]) := by
  intro ts
  induction ts with
  | nil => intro c _ _; simp [rateLimitRun]
  | cons hd tl ih =>
    intro c hin hbudget
    have hhd : hd - t0 ≤ W := hin hd (by simp)
    have hc : c < N := by
      have := hbudget
      simp at this
      omega
    simp only [List.map_cons, rateLimitRun, rlStep_within N W c id t0 hd hhd hc]
    have htl := ih (c + 1) (fun t ht => hin t (by simp [ht])) (by simp at hbudget ⊢; omega)
    simp only [htl]
    simp [List.replicate_succ]
    omega

/-- Claim C6: with limit `N` over window `W`, a trace of `N+1` requests of
one identity inside a single window passes the first `N` and rejects the
last with the 429 path, and a later request made more than `W` after the
window start passes again (the counter having reset). -/
theorem claim_C6_rate_limit_window (N W : Nat) (hN : 0 < N) (id : String)
    (t0 : Nat) (ts : List Nat) (hin : ∀ t ∈ ts, t - t0 ≤ W) (hlen : ts.length + 1 = N)
    (tLate tBig : Nat) (hLate : tLate - t0 ≤ W) (hBig : tBig - t0 > W) :
    (rateLimitRun N W (((t0 :: ts) ++ [tLate]).map (fun t => (id, t))) []).1 =
      (List.replicate N true ++ [false]) ∧
    (rateLimitRun N W ((((t0 :: ts) ++ [tLate]) ++ [tBig]).map (fun t => (id, t))) []).1 =
      ((List.replicate N true ++ [false]) ++ [true]) := by
  have hrun1 : rateLimitRun N W ((t0 :: ts).map (fun t => (id, t))) [] =
      (List.replicate N true, [⟨id, N, t0⟩]) := by
    simp only [List.map_cons, rateLimitRun, rlStep_fresh N W id t0 hN]
    have hfill := rlRun_fill N W id t0 ts 1 hin (by omega)
    simp only [hfill]
    rw [← hlen]
    simp [List.replicate_succ, Nat.add_comm]
  have hrun2 : rateLimitRun N W (((t0 :: ts) ++ [tLate]).map (fun t => (id, t))) [] =
      (List.replicate N true ++ [false], [⟨id, N, t0⟩]) := by
    rw [List.map_append, rlRun_append, hrun1]
    simp [rateLimitRun, rlStep_full N W N id t0 tLate hLate (le_refl N)]
  refine ⟨by rw [hrun2], ?_⟩
  rw [List.map_append, rlRun_append, hrun2]
  simp [rateLimitRun, rlStep_reset N W N id t0 tBig hBig hN]

/-- Claim C6, witnessed at the instantiation of the claim: limit 3, four
in-window requests give three passes and one 429, and a request after the
window passes again. -/
theorem claim_C6_rate_limit_window_witness :
    (rateLimitRun 3 60000 [("alice", 0), ("alice", 10), ("alice", 20), ("alice", 30)] []).1 =
      [true, true, true, false] ∧
    (rateLimitRun 3 60000
        [("alice", 0), ("alice", 10), ("alice", 20), ("alice", 30), ("alice", 60001)] []).1 =
      [true, true, true, false, true] := by
  have h := claim_C6_rate_limit_window 3 60000 (by decide) "alice" 0 [10, 20]
    (by decide) rfl 30 60001 (by decide) (by decide)
  exact ⟨by simpa using h.1, by simpa using h.2⟩

/-- Claim C7 counterexample: a request that authenticates as `alice`
through the `/upload` pipeline is nevertheless counted under its network
address, not under a username-keyed counter: the limiter is mounted before
the authentication middleware, so `req.locals.username` is unset when the
key is chosen. -/
theorem claim_C7_counterexample :
    (uploadPipeline [("abcdefghij", "alice")] 50 900000 []
        ⟨some "abcdefghij", none, none, none, false⟩ "203.0.113.7" 5).1 =
      ⟨"203.0.113.7", true, some (.authenticated "alice")⟩ ∧
    ("203.0.113.7" : String) ≠ "alice" := by
  refine ⟨by decide, by decide⟩

/-- Claim C7 (amended): the limiter body itself keys by the truthy
`req.locals.username` and falls back to the network address, but in the
mounted `/upload` pipeline the limiter runs before authentication with
`req.locals` unset, so the counter consulted for every request —
authenticated or not — is the one keyed by the client network address. -/
theorem claim_C7_amended (km : List (String × String)) (maxRequests windowMs : Nat)
    (m : List RLEntry) (r : AuthRequest) (ipStr : String) (t : Nat) (u : String) :
    (u ≠ "" → clientIdOf (some u) ipStr = u) ∧
    clientIdOf none ipStr = ipStr ∧
    (uploadPipeline km maxRequests windowMs m r ipStr t).1.rateKeyUsed = ipStr := by
  refine ⟨?_, rfl, ?_⟩
  · intro hu
    simp [clientIdOf, hu]
  · simp only [uploadPipeline, clientIdOf]
    split <;> rfl

/-- Claim C7 amended, witnessed at a concrete username and pipeline run. -/
theorem claim_C7_amended_witness :
    clientIdOf (some "alice") "203.0.113.7" = "alice" ∧
    (uploadPipeline [("abcdefghij", "alice")] 50 900000 []
        ⟨some "abcdefghij", none, none, none, false⟩ "203.0.113.7" 5).1.rateKeyUsed =
      "203.0.113.7" := by
  have h := claim_C7_amended [("abcdefghij", "alice")] 50 900000 []
    ⟨some "abcdefghij", none, none, none, false⟩ "203.0.113.7" 5 "alice"
  exact ⟨h.1 (by decide), h.2.2⟩

/-- Claim C3 counterexample: a multipart upload whose deferred re-check
fails (body key unregistered) with a file already written by multer gets
the InvalidKey error response while the handler deletes nothing — the
written file stays in the upload directory. -/
theorem claim_C3_counterexample :
    uploadHandler [("abcdefghij", "alice")] "https://sx.example" "https://files.example/"
        ⟨none, some "wrongkey12", some ⟨"f.png", "/uploads/f.png", "orig.png"⟩⟩ =
      ⟨.invalidKeyResp, []⟩ := by
  decide

/-- Claim C3 (amended): when authentication was deferred to the upload
handler (no username in `req.locals`), the re-check against the body key
does fail with InvalidKey for an unregistered key and EmptyKey for a
missing one — but the handler deletes nothing: any file the ingestion
middleware already wrote for the request is left in the upload directory
when the error response is sent. -/
theorem claim_C3_amended (km : List (String × String)) (serverUrl staticUrl : String)
    (ctx : UploadCtx) (hl : jsTruthy ctx.localsUsername = false) :
    (∀ k, ctx.bodyKey = some k → k ≠ "" → lookupKey km k = none →
      uploadHandler km serverUrl staticUrl ctx = ⟨.invalidKeyResp, []⟩) ∧
    (ctx.bodyKey = none →
      uploadHandler km serverUrl staticUrl ctx = ⟨.emptyKeyResp, []⟩) ∧
    (uploadHandler km serverUrl staticUrl ctx).removed = [] := by
  refine ⟨?_, ?_, ?_⟩
  · intro k hk hne hlk
    simp [uploadHandler, hl, hk, hne, hlk]
  · intro hk
    simp [uploadHandler, hl, hk]
  · unfold uploadHandler
    rw [hl]
    rcases ctx.bodyKey with _ | k
    · simp
    · by_cases hne : k = ""
      · simp [hne]
      · rcases hlk : lookupKey km k with _ | u
        · simp [hne, hlk]
        · by_cases hu : u = ""
          · simp [hne, hlk, hu]
          · rcases ctx.file with _ | f <;> simp [hne, hlk, hu]

/-- Claim C3 amended, witnessed at a concrete failing re-check with a
written file. -/
theorem claim_C3_amended_witness :
    uploadHandler [("abcdefghij", "alice")] "https://sx.example" "https://files.example/"
        ⟨none, some "nosuchkey1", some ⟨"f.png", "/uploads/f.png", "orig.png"⟩⟩ =
      ⟨.invalidKeyResp, []⟩ := by
  exact (claim_C3_amended [("abcdefghij", "alice")] "https://sx.example"
    "https://files.example/"
    ⟨none, some "nosuchkey1", some ⟨"f.png", "/uploads/f.png", "orig.png"⟩⟩ rfl).1
    "nosuchkey1" rfl (by decide) (by decide)

/-- Claim C10: the `delete_url` key parameter comes from the body `key`
field only: an upload authenticated outside the body (username already in
`req.locals`, no body key) gets a `delete_url` ending in the literal
`key=undefined`, while a present body key is what gets URL-encoded into
the `delete_url`, whatever credential actually authenticated. -/
theorem claim_C10_delete_url_key (km : List (String × String))
    (serverUrl staticUrl : String) (ctx : UploadCtx) (f : ReqFile)
    (hf : ctx.file = some f) (hu : jsTruthy ctx.localsUsername = true) :
    (ctx.bodyKey = none →
      uploadHandler km serverUrl staticUrl ctx =
        ⟨.uploadedResp (staticUrl ++ f.filename)
          (serverUrl ++ "/delete?filename=" ++ encodeURIComponent f.filename
            ++ "&key=" ++ "undefined"), []⟩) ∧
    (∀ k, ctx.bodyKey = some k →
      uploadHandler km serverUrl staticUrl ctx =
        ⟨.uploadedResp (staticUrl ++ f.filename)
          (serverUrl ++ "/delete?filename=" ++ encodeURIComponent f.filename
            ++ "&key=" ++ encodeURIComponent k), []⟩) := by
  constructor
  · intro hk
    simp [uploadHandler, hu, hf, hk, encodeURIComponentOpt]
  · intro k hk
    simp [uploadHandler, hu, hf, hk, encodeURIComponentOpt]

/-- Claim C10, witnessed: an upload authenticated via `req.locals` with no
body key yields a delete_url whose key value is the literal string
`undefined`. -/
theorem claim_C10_delete_url_key_witness :
    uploadHandler [("abcdefghij", "alice")] "https://sx.example" "https://files.example/"
        ⟨some "alice", none, some ⟨"a.png", "/uploads/a.png", "orig.png"⟩⟩ =
      ⟨.uploadedResp ("https://files.example/" ++ "a.png")
        ("https://sx.example" ++ "/delete?filename=" ++ encodeURIComponent "a.png"
          ++ "&key=" ++ "undefined"), []⟩ := by
  exact (claim_C10_delete_url_key [("abcdefghij", "alice")] "https://sx.example"
    "https://files.example/"
    ⟨some "alice", none, some ⟨"a.png", "/uploads/a.png", "orig.png"⟩⟩
    ⟨"a.png", "/uploads/a.png", "orig.png"⟩ rfl rfl).1 rfl

/-- An error envelope whose error object carries a machine-readable code
and a timestamp, as the claim demands of every error response. -/
def errEnvelopeComplete : Envelope → Bool
  | .err e => e.code.isSome && e.timestamp.isSome
  | .ok _ _ _ => false

/-- Claim C9 counterexample: the inline 429 body the rate limiter sends
has no `code` member and no `timestamp` member, so not every error
response (the claim names the rate-limit 429 explicitly) carries a
machine-readable code. -/
theorem claim_C9_counterexample :
    rateLimit429Body.code = none ∧ rateLimit429Body.timestamp = none ∧
    errEnvelopeComplete (.err rateLimit429Body) = false := by
  refine ⟨rfl, rfl, rfl⟩

/-- Claim C9 (amended): every response built through `response.js` has the
claimed envelope: successes are `success:true` with message, data and
timestamp, and every error helper yields `success:false` with an error
object carrying message, a machine-readable `code`, a `timestamp` and an
optional `fix`.  The inline bodies — the rate-limit 429, the global 500,
the 404 and the upload-handler catch 500 — instead carry only `message`
(and `fix` for the 429): they have no `code` and no `timestamp`. -/
theorem claim_C9_amended (now fileUrl deleteUrl fileName : String) :
    (responseUploaded fileUrl deleteUrl now).2 =
      .ok "File uploaded successfully"
        ("file with url " ++ fileUrl ++ " and delete_url " ++ deleteUrl) now ∧
    (responseDeleted fileName now).2 =
      .ok ("File " ++ fileName ++ " deleted successfully") ("filename " ++ fileName) now ∧
    errEnvelopeComplete (responseEmptyKey now).2 = true ∧
    errEnvelopeComplete (responseInvalidKey now).2 = true ∧
    errEnvelopeComplete (responseNoFileUploaded now).2 = true ∧
    errEnvelopeComplete (responseInvalidFileExtension now).2 = true ∧
    errEnvelopeComplete (responseFileTooLarge now).2 = true ∧
    errEnvelopeComplete (responseFileDoesntExists now).2 = true ∧
    errEnvelopeComplete (responseFileNameIsEmpty now).2 = true ∧
    errEnvelopeComplete (responseRateLimited now).2 = true ∧
    errEnvelopeComplete (responseServerError now).2 = true ∧
    errEnvelopeComplete (responseValidationError now).2 = true ∧
    errEnvelopeComplete (.err rateLimit429Body) = false ∧
    errEnvelopeComplete (.err appGlobal500Body) = false ∧
    errEnvelopeComplete (.err app404Body) = false ∧
    errEnvelopeComplete (.err uploadCatch500Body) = false := by
  exact ⟨rfl, rfl, rfl, rfl, rfl, rfl, rfl, rfl, rfl, rfl, rfl, rfl, rfl, rfl, rfl, rfl⟩

/-- Claim C2: evaluation at the failing input.  A streaming upload whose
file part carries one byte more than the 5 GiB ceiling is truncated by the
busboy `fileSize` limit to exactly the ceiling (busboy signals this only
through a `limit` event nobody listens to; it emits no error, so the
`LIMIT_FILE_SIZE` branch of the handler is unreachable), `finish` fires,
and the run ends `completed`: `req.file` is set with the truncated size,
the partial file stays on disk, and no FileTooLarge abort happens. -/
theorem claim_C2_truncation_presented_complete :
    handleLargeUpload ⟨104857600, 5368709120, true, [".png"], "/uploads"⟩
        "2025_Jan_01-00_00_00" "abcd1234" ⟨5368709121, false, some ("big.png", 5368709121)⟩ =
      ⟨.completed ⟨"2025_Jan_01-00_00_00_abcd1234.png",
          "/uploads/2025_Jan_01-00_00_00_abcd1234.png",
          "2025_Jan_01-00_00_00_abcd1234.png", 5368709120, "application/octet-stream"⟩,
        some ("/uploads/2025_Jan_01-00_00_00_abcd1234.png", 5368709120)⟩ := by
  decide

/-- Claim C8: on the streaming path, a file part whose extension fails the
allow-list check never opens a destination file and persists nothing: the
run ends with the InvalidExtension error and no file on disk. -/
theorem claim_C8_streaming_extension (cfg : StreamConfig)
    (formattedDate randomPart : String) (req : StreamReq) (orig : String) (bytes : Nat)
    (hlarge : (cfg.fileSizeLimit < req.contentLength || req.largeFileFlag) = true)
    (hfile : req.filePart = some (orig, bytes)) (hname : orig ≠ "")
    (hext : isFileExtensionAllowed cfg orig = false) :
    handleLargeUpload cfg formattedDate randomPart req =
      ⟨.invalidExtensionResp, none⟩ := by
  simp [handleLargeUpload, hlarge, hfile, hname, hext]

/-- Claim C8, witnessed: a `.exe` part on the streaming path with the
allow-list containing only `.png` is rejected with nothing on disk. -/
theorem claim_C8_streaming_extension_witness :
    handleLargeUpload ⟨104857600, 5368709120, true, [".png"], "/uploads"⟩ "d" "r"
        ⟨200000000, false, some ("evil.exe", 100)⟩ =
      ⟨.invalidExtensionResp, none⟩ := by
  exact claim_C8_streaming_extension ⟨104857600, 5368709120, true, [".png"], "/uploads"⟩
    "d" "r" ⟨200000000, false, some ("evil.exe", 100)⟩ "evil.exe" 100
    (by decide) rfl (by decide) (by decide)

end SxS
